import Mathlib

/-!
Shallow embedding of `iCub::optimization::CalibReferenceWithMatchedPoints`
(`src/libraries/optimization/include/iCub/optimization/calibReference.h`).

Only the class declaration is present in the repository sources; the method
bodies live in a translation unit that is not part of the source tree.  The
data members and method signatures below follow the header; every method body
is modelled from the specification, as indicated by its doc comment.
-/

namespace CalibReference

open Classical

/-- The data members of `CalibReferenceWithMatchedPoints` (header lines 62-71):
bound vectors `min`/`max` (6-dim transform bounds), `min_s`/`max_s` (3-dim
scaling bounds), initial guesses `x0` (6-dim) and `s0` (3-dim), the scalar
scaling bounds and seed, and the two parallel point deques `p0`, `p1`.
`yarp::sig::Vector` is modelled as `List ℝ`, `std::deque` as `List`. -/
structure CalibState where
  min : List ℝ
  min_s : List ℝ
  max : List ℝ
  max_s : List ℝ
  x0 : List ℝ
  s0 : List ℝ
  min_s_scalar : ℝ
  max_s_scalar : ℝ
  s0_scalar : ℝ
  p0 : List (List ℝ)
  p1 : List (List ℝ)

/-- Modelled from the spec: the default constructor
`CalibReferenceWithMatchedPoints()`, whose body is absent from the source
tree.  Defaults per the header notes and spec §3: transform bounds
min=(-1,-1,-1,-π,-π,-π), max=(1,1,1,π,π,π); anisotropic scaling bounds
min=(0.1,0.1,0.1), max=(10,10,10); scalar scaling bounds 0.1 and 10;
initial guess x0 = 0⁶, scale seeds s0 = (1,1,1) and s0_scalar = 1;
empty point database. -/
noncomputable def initState : CalibState :=
  { min := [-1, -1, -1, -Real.pi, -Real.pi, -Real.pi]
    min_s := [0.1, 0.1, 0.1]
    max := [1, 1, 1, Real.pi, Real.pi, Real.pi]
    max_s := [10, 10, 10]
    x0 := [0, 0, 0, 0, 0, 0]
    s0 := [1, 1, 1]
    min_s_scalar := 0.1
    max_s_scalar := 10
    s0_scalar := 1
    p0 := []
    p1 := [] }

/-- `getNumPoints() const { return p0.size(); }` — implemented inline in the
header (line 134). -/
def getNumPoints (st : CalibState) : Nat := st.p0.length

/-- Modelled from the spec: `getPoints` (body absent from the source tree)
returns copies of the two point sequences in insertion order (spec §4.1
`getAll`). -/
def getPoints (st : CalibState) : List (List ℝ) × List (List ℝ) :=
  (st.p0, st.p1)

/-- Modelled from the spec: `clearPoints` (body absent from the source tree)
empties both sequences (spec §4.1 `clear`). -/
def clearPoints (st : CalibState) : CalibState :=
  { st with p0 := [], p1 := [] }

/-- Modelled from the spec: `addPoints` (body absent from the source tree)
appends the pair to both deques and returns true if both vectors have
dimension exactly 3; otherwise returns false with no mutation
(spec §4.1 `addPoint`). -/
def addPoints (q0 q1 : List ℝ) (st : CalibState) : Bool × CalibState :=
  if q0.length = 3 ∧ q1.length = 3 then
    (true, { st with p0 := st.p0 ++ [q0], p1 := st.p1 ++ [q1] })
  else
    (false, st)

/-- Modelled from the spec: `setBounds` (body absent from the source tree;
the header declares it `void`, so it reports no status).  Per the spec's
mandated rejection policy (§4.2, §9) it stores the 6-dim transform bounds when
both vectors have dimension 6 and min ≤ max componentwise, and otherwise
leaves the stored bounds unchanged. -/
noncomputable def setBounds (mn mx : List ℝ) (st : CalibState) : CalibState :=
  if mn.length = 6 ∧ mx.length = 6 ∧ ∀ i < 6, mn.getD i 0 ≤ mx.getD i 0 then
    { st with min := mn, max := mx }
  else
    st

/-- Modelled from the spec: the 3-vector overload of `setScalingBounds`
(body absent from the source tree; declared `void`).  Same validation
pattern as the transform bounds (spec §4.2), on the 3-dim scaling bounds. -/
noncomputable def setScalingBounds (mn mx : List ℝ) (st : CalibState) : CalibState :=
  if mn.length = 3 ∧ mx.length = 3 ∧ ∀ i < 3, mn.getD i 0 ≤ mx.getD i 0 then
    { st with min_s := mn, max_s := mx }
  else
    st

/-- Modelled from the spec: the scalar overload of `setScalingBounds`
(body absent from the source tree; declared `void`). -/
noncomputable def setScalingBoundsScalar (mn mx : ℝ) (st : CalibState) : CalibState :=
  if mn ≤ mx then
    { st with min_s_scalar := mn, max_s_scalar := mx }
  else
    st

/-- Modelled from the spec: the 3-vector overload of `setScalingInitialGuess`
(body absent from the source tree) stores the seed verbatim after a dimension
check (spec §4.2). -/
def setScalingInitialGuess (s : List ℝ) (st : CalibState) : Bool × CalibState :=
  if s.length = 3 then (true, { st with s0 := s }) else (false, st)

/-- Modelled from the spec: the scalar overload of `setScalingInitialGuess`
(body absent from the source tree) stores the seed verbatim. -/
def setScalingInitialGuessScalar (s : ℝ) (st : CalibState) : Bool × CalibState :=
  (true, { st with s0_scalar := s })

/-- The upper-left 3x3 rotation block of a 4x4 homogeneous matrix. -/
def rotOf (H : Matrix (Fin 4) (Fin 4) ℝ) : Matrix (Fin 3) (Fin 3) ℝ :=
  Matrix.of fun i j => H i.castSucc j.castSucc

/-- A valid orthonormal rotation block: orthogonal with determinant 1
(spec §4.2). -/
def isValidRotation (R : Matrix (Fin 3) (Fin 3) ℝ) : Prop :=
  R * R.transpose = 1 ∧ R.det = 1

/-- Two-argument arctangent, via the complex argument. -/
noncomputable def atan2 (y x : ℝ) : ℝ :=
  Complex.arg (Complex.ofReal x + Complex.ofReal y * Complex.I)

/-- Modelled from the spec: the inverse ZYZ Euler decomposition of a rotation
matrix (the helper the absent `setInitialGuess` body uses, spec §4.2). -/
noncomputable def dcm2euler (R : Matrix (Fin 3) (Fin 3) ℝ) : List ℝ :=
  [atan2 (R 1 2) (R 0 2),
   atan2 (Real.sqrt ((R 0 2) ^ 2 + (R 1 2) ^ 2)) (R 2 2),
   atan2 (R 2 1) (-(R 2 0))]

/-- The 6-vector initial guess decoded from a homogeneous matrix: translation
column followed by the ZYZ Euler angles of the rotation block. -/
noncomputable def guessOf (H : Matrix (Fin 4) (Fin 4) ℝ) : List ℝ :=
  [H 0 3, H 1 3, H 2 3] ++ dcm2euler (rotOf H)

/-- Modelled from the spec: `setInitialGuess` (body absent from the source
tree) decomposes the homogeneous matrix into the 6-vector `x0` and returns
true when the rotation block is a valid orthonormal rotation, and returns
false with no mutation otherwise (spec §4.2). -/
noncomputable def setInitialGuess (H : Matrix (Fin 4) (Fin 4) ℝ) (st : CalibState) :
    Bool × CalibState :=
  if isValidRotation (rotOf H) then
    (true, { st with x0 := guessOf H })
  else
    (false, st)

/-- The scale factor active during a calibration run: identity (first
`calibrate` variant), diagonal anisotropic (second variant), or a scalar
multiple of the identity (third variant). -/
inductive Scale where
  | ident : Scale
  | aniso : List ℝ → Scale
  | iso : ℝ → Scale

/-- Application of a scale to a 3D point. -/
def applyScale (S : Scale) (p : List ℝ) : List ℝ :=
  match S with
  | .ident => p
  | .aniso s => [s.getD 0 0 * p.getD 0 0, s.getD 1 0 * p.getD 1 0, s.getD 2 0 * p.getD 2 0]
  | .iso c => [c * p.getD 0 0, c * p.getD 1 0, c * p.getD 2 0]

/-- Application of a homogeneous transform to a 3D point (rotation block
times the point plus the translation column). -/
def applyH (H : Matrix (Fin 4) (Fin 4) ℝ) (p : List ℝ) : List ℝ :=
  [H 0 0 * p.getD 0 0 + H 0 1 * p.getD 1 0 + H 0 2 * p.getD 2 0 + H 0 3,
   H 1 0 * p.getD 0 0 + H 1 1 * p.getD 1 0 + H 1 2 * p.getD 2 0 + H 1 3,
   H 2 0 * p.getD 0 0 + H 2 1 * p.getD 1 0 + H 2 2 * p.getD 2 0 + H 2 3]

/-- The squared residual of one point pair: ‖q1 − S·H·q0‖². -/
def resSq (S : Scale) (H : Matrix (Fin 4) (Fin 4) ℝ) (q0 q1 : List ℝ) : ℝ :=
  (q1.getD 0 0 - (applyScale S (applyH H q0)).getD 0 0) ^ 2 +
  (q1.getD 1 0 - (applyScale S (applyH H q0)).getD 1 0) ^ 2 +
  (q1.getD 2 0 - (applyScale S (applyH H q0)).getD 2 0) ^ 2

/-- Modelled from the spec: `evalError` (body absent from the source tree;
the header declares `double evalError(const Matrix &H)`, the scale entering
through the transform).  Per spec §4.3 it accumulates the squared residual
norms over the stored pairs and returns the root of their mean. -/
noncomputable def evalError (st : CalibState) (H : Matrix (Fin 4) (Fin 4) ℝ) (S : Scale) : ℝ :=
  Real.sqrt
    (((st.p0.zip st.p1).foldl (fun a q => a + resSq S H q.1 q.2) 0) / (st.p0.length : ℝ))

/-- Modelled from the spec: the forward ZYZ Euler rotation used when the
solution 6-vector is decoded back into a homogeneous matrix (spec §4.4). -/
noncomputable def euler2dcm (e : List ℝ) : Matrix (Fin 3) (Fin 3) ℝ :=
  Matrix.of fun i j =>
    let a := e.getD 0 0
    let b := e.getD 1 0
    let c := e.getD 2 0
    if i = 0 then
      if j = 0 then Real.cos a * Real.cos b * Real.cos c - Real.sin a * Real.sin c
      else if j = 1 then -(Real.cos a * Real.cos b * Real.sin c) - Real.sin a * Real.cos c
      else Real.cos a * Real.sin b
    else if i = 1 then
      if j = 0 then Real.sin a * Real.cos b * Real.cos c + Real.cos a * Real.sin c
      else if j = 1 then -(Real.sin a * Real.cos b * Real.sin c) + Real.cos a * Real.cos c
      else Real.sin a * Real.sin b
    else
      if j = 0 then -(Real.sin b * Real.cos c)
      else if j = 1 then Real.sin b * Real.sin c
      else Real.cos b

/-- The homogeneous matrix decoded from a solution 6-vector: rotation block
from the Euler angles (components 3-5), translation from components 0-2. -/
noncomputable def homOf (x : List ℝ) : Matrix (Fin 4) (Fin 4) ℝ :=
  Matrix.of fun i j =>
    if h : i.val < 3 then
      if h' : j.val < 3 then euler2dcm [x.getD 3 0, x.getD 4 0, x.getD 5 0] ⟨i.val, h⟩ ⟨j.val, h'⟩
      else x.getD i.val 0
    else
      if j.val < 3 then 0 else 1

/-- Modelled from the spec: the first `calibrate` variant (body absent from
the source tree).  Per spec §4.4 it rejects when fewer than 3 point pairs are
stored, otherwise runs the backend bound-constrained solver (modelled as an
explicit deterministic function argument returning the solution 6-vector or
failure), decodes the solution into a homogeneous matrix and reports the
residual at the solution; the point store is not mutated (spec §3). -/
noncomputable def calibrate1 (f : CalibState → Option (List ℝ)) (st : CalibState) :
    Option (Matrix (Fin 4) (Fin 4) ℝ × ℝ) × CalibState :=
  (if st.p0.length < 3 then none
   else
     match f st with
     | none => none
     | some x => some (homOf x, evalError st (homOf x) Scale.ident), st)

/-- Modelled from the spec: the second `calibrate` variant (anisotropic
scale; body absent from the source tree).  The backend returns the transform
6-vector together with the 3 scale factors. -/
noncomputable def calibrate2 (f : CalibState → Option (List ℝ × List ℝ)) (st : CalibState) :
    Option (Matrix (Fin 4) (Fin 4) ℝ × List ℝ × ℝ) × CalibState :=
  (if st.p0.length < 3 then none
   else
     match f st with
     | none => none
     | some (x, s) => some (homOf x, s, evalError st (homOf x) (Scale.aniso s)), st)

/-- Modelled from the spec: the third `calibrate` variant (scalar scale; body
absent from the source tree).  The backend returns the transform 6-vector
together with the scalar scale factor. -/
noncomputable def calibrate3 (f : CalibState → Option (List ℝ × ℝ)) (st : CalibState) :
    Option (Matrix (Fin 4) (Fin 4) ℝ × ℝ × ℝ) × CalibState :=
  (if st.p0.length < 3 then none
   else
     match f st with
     | none => none
     | some (x, s) => some (homOf x, s, evalError st (homOf x) (Scale.iso s)), st)

/-- The public mutating operations of the class, as one step relation input:
point addition and clearing, the bound and initial-guess setters, and the
three calibration entry points (each carrying its backend solver). -/
inductive Op where
  | add : List ℝ → List ℝ → Op
  | clear : Op
  | bounds : List ℝ → List ℝ → Op
  | scaleBounds : List ℝ → List ℝ → Op
  | scaleBoundsScalar : ℝ → ℝ → Op
  | guess : Matrix (Fin 4) (Fin 4) ℝ → Op
  | scaleGuess : List ℝ → Op
  | scaleGuessScalar : ℝ → Op
  | calib1 : (CalibState → Option (List ℝ)) → Op
  | calib2 : (CalibState → Option (List ℝ × List ℝ)) → Op
  | calib3 : (CalibState → Option (List ℝ × ℝ)) → Op

/-- The state transition of each public operation (return values projected
away). -/
noncomputable def step (op : Op) (st : CalibState) : CalibState :=
  match op with
  | .add q0 q1 => (addPoints q0 q1 st).2
  | .clear => clearPoints st
  | .bounds mn mx => setBounds mn mx st
  | .scaleBounds mn mx => setScalingBounds mn mx st
  | .scaleBoundsScalar mn mx => setScalingBoundsScalar mn mx st
  | .guess H => (setInitialGuess H st).2
  | .scaleGuess s => (setScalingInitialGuess s st).2
  | .scaleGuessScalar s => (setScalingInitialGuessScalar s st).2
  | .calib1 f => (calibrate1 f st).2
  | .calib2 f => (calibrate2 f st).2
  | .calib3 f => (calibrate3 f st).2

/-- A configuration with empty bound vectors and no points, used to
instantiate universally quantified statements on concrete data. -/
def stFree : CalibState :=
  { min := [], min_s := [], max := [], max_s := [], x0 := [], s0 := [],
    min_s_scalar := 0, max_s_scalar := 0, s0_scalar := 0, p0 := [], p1 := [] }

/-- A concrete configuration holding exactly two point pairs. -/
def stTwo : CalibState :=
  { stFree with p0 := [[0, 0, 0], [1, 0, 0]], p1 := [[0, 0, 1], [1, 1, 0]] }

/-- The configuration `stTwo` with both point sequences reversed
identically (the pairing is preserved). -/
def stSwap : CalibState :=
  { stFree with p0 := [[1, 0, 0], [0, 0, 0]], p1 := [[1, 1, 0], [0, 0, 1]] }

lemma foldl_add_resSq (S : Scale) (H : Matrix (Fin 4) (Fin 4) ℝ)
    (l : List (List ℝ × List ℝ)) (a : ℝ) :
    l.foldl (fun acc q => acc + resSq S H q.1 q.2) a =
      a + (l.map fun q => resSq S H q.1 q.2).sum := by
  induction l generalizing a with
  | nil => simp
  | cons x xs ih => simp [ih, add_assoc]

lemma rotOf_one : rotOf (1 : Matrix (Fin 4) (Fin 4) ℝ) = 1 := by
  ext i j
  simp [rotOf, Matrix.one_apply, Fin.castSucc_inj]

/-- C6: after the default constructor runs and before any setter is called,
the stored configuration equals the documented defaults: transform bounds
min=(-1,-1,-1,-π,-π,-π), max=(1,1,1,π,π,π); anisotropic scale bounds
min=(0.1,0.1,0.1), max=(10,10,10); scalar scale bounds min=0.1, max=10;
initial guess x0 the zero 6-vector, scale seed s0=(1,1,1) and scalar
seed s0=1. -/
theorem initState_defaults :
    initState.min = [-1, -1, -1, -Real.pi, -Real.pi, -Real.pi] ∧
    initState.max = [1, 1, 1, Real.pi, Real.pi, Real.pi] ∧
    initState.min_s = [0.1, 0.1, 0.1] ∧
    initState.max_s = [10, 10, 10] ∧
    initState.min_s_scalar = 0.1 ∧
    initState.max_s_scalar = 10 ∧
    initState.x0 = [0, 0, 0, 0, 0, 0] ∧
    initState.s0 = [1, 1, 1] ∧
    initState.s0_scalar = 1 :=
  ⟨rfl, rfl, rfl, rfl, rfl, rfl, rfl, rfl, rfl⟩

/-- C3: `addPoints` appends the pair to the internal database and returns
true if both vectors have dimension exactly 3; otherwise it returns false
and performs no mutation, so `getNumPoints` is unchanged by a rejected
call. -/
theorem addPoints_dim_check (q0 q1 : List ℝ) (st : CalibState) :
    (q0.length = 3 ∧ q1.length = 3 →
      addPoints q0 q1 st =
        (true, { st with p0 := st.p0 ++ [q0], p1 := st.p1 ++ [q1] })) ∧
    (¬ (q0.length = 3 ∧ q1.length = 3) →
      addPoints q0 q1 st = (false, st) ∧
        getNumPoints (addPoints q0 q1 st).2 = getNumPoints st) := by
  constructor
  · intro h
    unfold addPoints
    rw [if_pos h]
  · intro h
    have e : addPoints q0 q1 st = (false, st) := by
      unfold addPoints
      rw [if_neg h]
    exact ⟨e, by rw [e]⟩

theorem addPoints_dim_check_w :
    addPoints [1, 2, 3] [4, 5, 6] stFree =
      (true, { stFree with p0 := [[1, 2, 3]], p1 := [[4, 5, 6]] }) ∧
    addPoints [1, 2] [4, 5, 6] stFree = (false, stFree) := by
  constructor
  · exact (addPoints_dim_check [1, 2, 3] [4, 5, 6] stFree).1 ⟨rfl, rfl⟩
  · exact ((addPoints_dim_check [1, 2] [4, 5, 6] stFree).2 (by simp)).1

/-- C8: every invocation of any of the three `calibrate` variants leaves the
point-pair store unchanged, as observed through the state itself and through
`getPoints` and `getNumPoints`, whether the call succeeds or fails. -/
theorem calibrate_preserves_store (f1 : CalibState → Option (List ℝ))
    (f2 : CalibState → Option (List ℝ × List ℝ)) (f3 : CalibState → Option (List ℝ × ℝ))
    (st : CalibState) :
    (calibrate1 f1 st).2 = st ∧ (calibrate2 f2 st).2 = st ∧ (calibrate3 f3 st).2 = st ∧
    getPoints (calibrate1 f1 st).2 = getPoints st ∧
    getNumPoints (calibrate1 f1 st).2 = getNumPoints st ∧
    getPoints (calibrate2 f2 st).2 = getPoints st ∧
    getNumPoints (calibrate2 f2 st).2 = getNumPoints st ∧
    getPoints (calibrate3 f3 st).2 = getPoints st ∧
    getNumPoints (calibrate3 f3 st).2 = getNumPoints st :=
  ⟨rfl, rfl, rfl, rfl, rfl, rfl, rfl, rfl, rfl⟩

/-- C9: two successive invocations of the same `calibrate` variant with no
intervening mutation return the same result (status, transform, scale and
error): the second run starts from the state the first run left behind and
produces the same output and final state. -/
theorem calibrate_deterministic (f1 : CalibState → Option (List ℝ))
    (f2 : CalibState → Option (List ℝ × List ℝ)) (f3 : CalibState → Option (List ℝ × ℝ))
    (st : CalibState) :
    (calibrate1 f1 (calibrate1 f1 st).2).1 = (calibrate1 f1 st).1 ∧
    (calibrate1 f1 (calibrate1 f1 st).2).2 = (calibrate1 f1 st).2 ∧
    (calibrate2 f2 (calibrate2 f2 st).2).1 = (calibrate2 f2 st).1 ∧
    (calibrate2 f2 (calibrate2 f2 st).2).2 = (calibrate2 f2 st).2 ∧
    (calibrate3 f3 (calibrate3 f3 st).2).1 = (calibrate3 f3 st).1 ∧
    (calibrate3 f3 (calibrate3 f3 st).2).2 = (calibrate3 f3 st).2 :=
  ⟨rfl, rfl, rfl, rfl, rfl, rfl⟩

/-- C2: with fewer than 3 stored point pairs, every one of the three
`calibrate` variants fails (returns no result), whatever the backend solver
would answer — the solver is never consulted — and no output transform,
scale or error is produced. -/
theorem calibrate_insufficient_points (f1 : CalibState → Option (List ℝ))
    (f2 : CalibState → Option (List ℝ × List ℝ)) (f3 : CalibState → Option (List ℝ × ℝ))
    (st : CalibState) (h : getNumPoints st < 3) :
    (calibrate1 f1 st).1 = none ∧ (calibrate2 f2 st).1 = none ∧
      (calibrate3 f3 st).1 = none := by
  have h' : st.p0.length < 3 := h
  refine ⟨?_, ?_, ?_⟩ <;> simp [calibrate1, calibrate2, calibrate3, h']

theorem calibrate_insufficient_points_w :
    getNumPoints stTwo < 3 ∧
    (calibrate1 (fun _ => some [0, 0, 0, 0, 0, 0]) stTwo).1 = none ∧
    (calibrate2 (fun _ => some ([0, 0, 0, 0, 0, 0], [1, 1, 1])) stTwo).1 = none ∧
    (calibrate3 (fun _ => some ([0, 0, 0, 0, 0, 0], 1)) stTwo).1 = none :=
  ⟨by simp [getNumPoints, stTwo],
   calibrate_insufficient_points _ _ _ stTwo (by simp [getNumPoints, stTwo])⟩

/-- C1: for every stored set of N ≥ 1 point pairs, every transform H and
every active scale S, the residual reported by the evaluator equals
sqrt((1/N)·Σᵢ‖p1ᵢ − S·H·p0ᵢ‖²), and the error returned by each `calibrate`
variant at its solution is exactly the evaluator's value there. -/
theorem evalError_rms (st : CalibState) (H : Matrix (Fin 4) (Fin 4) ℝ) (S : Scale)
    (hN : 1 ≤ getNumPoints st) (hlen : st.p0.length = st.p1.length) :
    evalError st H S =
      Real.sqrt ((1 / (getNumPoints st : ℝ)) *
        ((st.p0.zip st.p1).map fun q => resSq S H q.1 q.2).sum) ∧
    (∀ f H' e, (calibrate1 f st).1 = some (H', e) → e = evalError st H' Scale.ident) ∧
    (∀ f H' s e, (calibrate2 f st).1 = some (H', s, e) →
      e = evalError st H' (Scale.aniso s)) ∧
    (∀ f H' s e, (calibrate3 f st).1 = some (H', s, e) →
      e = evalError st H' (Scale.iso s)) := by
  refine ⟨?_, ?_, ?_, ?_⟩
  · unfold evalError getNumPoints
    rw [foldl_add_resSq, zero_add]
    congr 1
    ring
  · intro f H' e hsome
    by_cases hn : st.p0.length < 3
    · simp [calibrate1, hn] at hsome
    · cases hc : f st with
      | none => simp [calibrate1, hn, hc] at hsome
      | some x =>
          simp [calibrate1, hn, hc] at hsome
          obtain ⟨h1, h2⟩ := hsome
          subst h1
          subst h2
          rfl
  · intro f H' s e hsome
    by_cases hn : st.p0.length < 3
    · simp [calibrate2, hn] at hsome
    · cases hc : f st with
      | none => simp [calibrate2, hn, hc] at hsome
      | some x =>
          simp [calibrate2, hn, hc] at hsome
          obtain ⟨h1, h2, h3⟩ := hsome
          subst h1
          subst h2
          subst h3
          rfl
  · intro f H' s e hsome
    by_cases hn : st.p0.length < 3
    · simp [calibrate3, hn] at hsome
    · cases hc : f st with
      | none => simp [calibrate3, hn, hc] at hsome
      | some x =>
          simp [calibrate3, hn, hc] at hsome
          obtain ⟨h1, h2, h3⟩ := hsome
          subst h1
          subst h2
          subst h3
          rfl

theorem evalError_rms_w :
    1 ≤ getNumPoints stTwo ∧
      evalError stTwo 1 Scale.ident =
        Real.sqrt ((1 / (getNumPoints stTwo : ℝ)) *
          ((stTwo.p0.zip stTwo.p1).map fun q => resSq Scale.ident 1 q.1 q.2).sum) :=
  ⟨by simp [getNumPoints, stTwo],
   (evalError_rms stTwo 1 Scale.ident (by simp [getNumPoints, stTwo]) rfl).1⟩

/-- C7: the residual computed by the evaluator is invariant under permuting
the two point sequences identically (the pairing of p0 with p1 is
preserved), for every fixed transform H and scale S. -/
theorem evalError_perm_invariant (st st' : CalibState) (H : Matrix (Fin 4) (Fin 4) ℝ)
    (S : Scale) (h : st.p0.length = st.p1.length) (h' : st'.p0.length = st'.p1.length)
    (hp : (st'.p0.zip st'.p1).Perm (st.p0.zip st.p1)) :
    evalError st' H S = evalError st H S := by
  unfold evalError
  rw [foldl_add_resSq, foldl_add_resSq, zero_add, zero_add]
  have hlen : st'.p0.length = st.p0.length := by
    have hl := hp.length_eq
    rw [List.length_zip, List.length_zip, ← h, ← h', Nat.min_self, Nat.min_self] at hl
    exact hl
  rw [hlen, (hp.map fun q => resSq S H q.1 q.2).sum_eq]

theorem evalError_perm_invariant_w :
    (stSwap.p0.zip stSwap.p1).Perm (stTwo.p0.zip stTwo.p1) ∧
      evalError stSwap 1 Scale.ident = evalError stTwo 1 Scale.ident := by
  have hp : (stSwap.p0.zip stSwap.p1).Perm (stTwo.p0.zip stTwo.p1) :=
    List.Perm.swap ([0, 0, 0], [0, 0, 1]) ([1, 0, 0], [1, 1, 0]) []
  exact ⟨hp, evalError_perm_invariant stTwo stSwap 1 Scale.ident rfl rfl hp⟩

/-- C5: `setInitialGuess` returns false (with no mutation) when the
upper-left 3x3 block of H is not a valid orthonormal rotation, and when it
is, decomposes H into the 6-vector initial guess (translation and Euler
angles) and returns true. -/
theorem setInitialGuess_rotation_check (H : Matrix (Fin 4) (Fin 4) ℝ) (st : CalibState) :
    (isValidRotation (rotOf H) →
      setInitialGuess H st = (true, { st with x0 := guessOf H })) ∧
    (¬ isValidRotation (rotOf H) → setInitialGuess H st = (false, st)) := by
  constructor
  · intro h
    unfold setInitialGuess
    rw [if_pos h]
  · intro h
    unfold setInitialGuess
    rw [if_neg h]

theorem setInitialGuess_rotation_check_w :
    isValidRotation (rotOf (1 : Matrix (Fin 4) (Fin 4) ℝ)) ∧
      setInitialGuess 1 stFree = (true, { stFree with x0 := guessOf 1 }) := by
  have hv : isValidRotation (rotOf (1 : Matrix (Fin 4) (Fin 4) ℝ)) := by
    rw [rotOf_one]
    exact ⟨by simp, by simp⟩
  exact ⟨hv, (setInitialGuess_rotation_check 1 stFree).1 hv⟩

/-- C10: the two internal point sequences always have equal length: the
equality holds in the initial state and is preserved by every public
operation, and under it `getNumPoints` equals the length of each
sequence. -/
theorem store_lengths_invariant :
    initState.p0.length = initState.p1.length ∧
    (∀ op st, st.p0.length = st.p1.length →
      (step op st).p0.length = (step op st).p1.length) ∧
    (∀ st : CalibState, st.p0.length = st.p1.length →
      getNumPoints st = st.p0.length ∧ getNumPoints st = st.p1.length) := by
  refine ⟨rfl, ?_, ?_⟩
  · intro op st h
    cases op with
    | add q0 q1 =>
        show ((addPoints q0 q1 st).2).p0.length = ((addPoints q0 q1 st).2).p1.length
        unfold addPoints
        split
        · simp [h]
        · exact h
    | clear => exact rfl
    | bounds mn mx =>
        show (setBounds mn mx st).p0.length = (setBounds mn mx st).p1.length
        unfold setBounds
        split <;> exact h
    | scaleBounds mn mx =>
        show (setScalingBounds mn mx st).p0.length = (setScalingBounds mn mx st).p1.length
        unfold setScalingBounds
        split <;> exact h
    | scaleBoundsScalar mn mx =>
        show (setScalingBoundsScalar mn mx st).p0.length =
          (setScalingBoundsScalar mn mx st).p1.length
        unfold setScalingBoundsScalar
        split <;> exact h
    | guess H =>
        show ((setInitialGuess H st).2).p0.length = ((setInitialGuess H st).2).p1.length
        unfold setInitialGuess
        split <;> exact h
    | scaleGuess s =>
        show ((setScalingInitialGuess s st).2).p0.length =
          ((setScalingInitialGuess s st).2).p1.length
        unfold setScalingInitialGuess
        split <;> exact h
    | scaleGuessScalar s => exact h
    | calib1 f => exact h
    | calib2 f => exact h
    | calib3 f => exact h
  · intro st h
    exact ⟨rfl, h⟩

theorem store_lengths_invariant_w :
    stTwo.p0.length = stTwo.p1.length ∧
      (step (Op.add [1, 2, 3] [4, 5, 6]) stTwo).p0.length =
        (step (Op.add [1, 2, 3] [4, 5, 6]) stTwo).p1.length :=
  ⟨rfl, store_lengths_invariant.2.1 (Op.add [1, 2, 3] [4, 5, 6]) stTwo rfl⟩

end CalibReference
